import Mathlib

/-!
Shallow embedding of the RAG news chatbot core (ragService.js,
embeddingService.js, vectorStore.js, redisClient.js, the ingestion
chunkers) and proofs about it.  JavaScript strings are modelled as
`List Char`, numbers as `Nat`/`Int`/`ℚ` with explicit 32-bit wrapping
where the source relies on it, fallible steps as `Except`, and the
mutable service objects as explicit state values.
-/

namespace RagNews

/-- Association list with the JS `Map.set` semantics: replace in place when
the key is present, append otherwise (insertion order is preserved). -/
def mapSet {α β : Type} [DecidableEq α] : List (α × β) → α → β → List (α × β)
  | [], k, v => [(k, v)]
  | (k0, v0) :: t, k, v => if k0 = k then (k, v) :: t else (k0, v0) :: mapSet t k v

/-- Association list lookup, the JS `Map.get`. -/
def mapGet {α β : Type} [DecidableEq α] : List (α × β) → α → Option β
  | [], _ => none
  | (k0, v0) :: t, k => if k0 = k then some v0 else mapGet t k

/-- Association list removal, the JS `Map.delete`. -/
def mapDelete {α β : Type} [DecidableEq α] : List (α × β) → α → List (α × β)
  | [], _ => []
  | (k0, v0) :: t, k => if k0 = k then t else (k0, v0) :: mapDelete t k

/-- Characters matched by the JS regex class `\s` (the ones that occur in
practice: space, tab, newline, carriage return, vertical tab, form feed). -/
def isWs (c : Char) : Bool :=
  c = ' ' || c = '\t' || c = '\n' || c = '\r' || c = '\x0b' || c = '\x0c'

/-- Helper for `collapseWs`: the boolean records whether the previous
character was whitespace (already emitted as one space). -/
def collapseWsAux : List Char → Bool → List Char
  | [], _ => []
  | h :: t, prevWs =>
    if isWs h then
      if prevWs then collapseWsAux t true else ' ' :: collapseWsAux t true
    else h :: collapseWsAux t false

/-- The JS `text.replace(/\s+/g, ' ')`: every maximal run of whitespace
becomes a single space. -/
def collapseWs (cs : List Char) : List Char := collapseWsAux cs false

/-- Drop leading whitespace (half of JS `trim`). -/
def trimL : List Char → List Char
  | [] => []
  | h :: t => if isWs h then trimL t else h :: t

/-- The JS `String.prototype.trim`. -/
def trimCL (cs : List Char) : List Char := (trimL (trimL cs).reverse).reverse

/-- Helper for `lastDotSpace`, scanning left to right and remembering the
index of the last `". "` seen. -/
def lastDotSpaceAux : List Char → Nat → Int → Int
  | c1 :: c2 :: t, i, acc =>
    lastDotSpaceAux (c2 :: t) (i + 1) (if c1 = '.' && c2 = ' ' then (i : Int) else acc)
  | _, _, acc => acc

/-- The JS `s.lastIndexOf('. ')`: index of the last occurrence of a period
followed by a space, `-1` when there is none. -/
def lastDotSpace (cs : List Char) : Int := lastDotSpaceAux cs 0 (-1)

/-- Helper for `lastIndexOfFrom`. -/
def lastIndexOfFromAux : List Char → Char → Int → Nat → Int → Int
  | [], _, _, _, acc => acc
  | h :: t, c, fromIdx, i, acc =>
    lastIndexOfFromAux t c fromIdx (i + 1)
      (if h = c && (i : Int) ≤ fromIdx then (i : Int) else acc)

/-- The JS `s.lastIndexOf(c, fromIdx)`: the largest index `i ≤ fromIdx`
holding `c`, `-1` when there is none. -/
def lastIndexOfFrom (cs : List Char) (c : Char) (fromIdx : Int) : Int :=
  lastIndexOfFromAux cs c fromIdx 0 (-1)

/-- The JS `s.lastIndexOf(c)` (search the whole string). -/
def lastIndexOfChar (cs : List Char) (c : Char) : Int :=
  lastIndexOfFrom cs c (cs.length : Int)

/-- Clamp one index argument of the JS `slice` into `[0, n]`, counting
negative values from the end. -/
def jsSliceIdx (n : Nat) (i : Int) : Nat :=
  if i < 0 then (max 0 ((n : Int) + i)).toNat else min i.toNat n

/-- The JS `s.slice(a, b)` with full negative-index semantics. -/
def jsSlice (cs : List Char) (a b : Int) : List Char :=
  let s := jsSliceIdx cs.length a
  let e := jsSliceIdx cs.length b
  (cs.drop s).take (e - s)

/-- Does `hay` start with `needle`? -/
def startsWithCL : List Char → List Char → Bool
  | _, [] => true
  | [], _ :: _ => false
  | h :: hs, n :: ns => h = n && startsWithCL hs ns

/-- The JS `hay.includes(needle)`. -/
def hasSub : List Char → List Char → Bool
  | [], n => n.isEmpty
  | h :: t, n => startsWithCL (h :: t) n || hasSub t n

/-- The JS `s.toLowerCase()` (ASCII range, which is all the source uses). -/
def toLowerCL (cs : List Char) : List Char := cs.map Char.toLower

end RagNews

namespace RagNews.Ingest

/-!
The chunker `createTextChunksWithOverlap` of
`src/server/scripts/ingestUniqueArticles.js` (the identical copy lives in
`ingestRealTimeArticles.js`).
-/

/-- Input article of the ingestion scripts. -/
structure Article where
  id : String
  title : String
  content : String

/-- A produced chunk: `{id, text, index}`. -/
structure Chunk where
  id : String
  text : List Char
  index : Nat
deriving DecidableEq

/-- The chunk id template `` `${article.id}_chunk_${chunkIndex}` ``. -/
def chunkIdOf (articleId : String) (i : Nat) : String :=
  articleId ++ "_chunk_" ++ toString i

/-- The `while (start < text.length)` loop of `createTextChunksWithOverlap`,
written with explicit fuel; `none` means the fuel ran out before the loop
exited.  The float threshold `chunkSize * 0.7` is rendered exactly as the
rational comparison `10 * lastSentenceEnd > 7 * chunkSize`. -/
def chunkLoopW (artId : String) (text : List Char) (chunkSize overlap : Nat) :
    Nat → Nat → Nat → List Chunk → Option (List Chunk)
  | 0, _, _, _ => none
  | fuel + 1, start, chunkIndex, acc =>
    let n := text.length
    let e := min (start + chunkSize) n
    let chunkText := (text.drop start).take (e - start)
    let breakPoint :=
      if e < n then
        let lastSentenceEnd := lastDotSpace chunkText
        if 10 * lastSentenceEnd > 7 * (chunkSize : Int) then
          start + lastSentenceEnd.toNat + 2
        else e
      else e
    let acc2 := acc ++
      [⟨chunkIdOf artId chunkIndex, trimCL ((text.drop start).take (breakPoint - start)),
        chunkIndex⟩]
    let start2 := max (start + chunkSize - overlap) breakPoint
    if n ≤ start2 then some acc2
    else chunkLoopW artId text chunkSize overlap fuel start2 (chunkIndex + 1) acc2

/-- `createTextChunksWithOverlap(article, chunkSize, overlap)`. -/
def createTextChunksWithOverlap (article : Article)
    (chunkSize : Nat := 500) (overlap : Nat := 100) : Option (List Chunk) :=
  let text := (article.title ++ "\n\n" ++ article.content).data
  if text.length ≤ chunkSize then
    some [⟨chunkIdOf article.id 0, text, 0⟩]
  else
    chunkLoopW article.id text chunkSize overlap (text.length + 1) 0 0 []

/-- The next window start computed by one iteration of the
`createTextChunksWithOverlap` loop body. -/
def stepStartW (text : List Char) (chunkSize overlap start : Nat) : Nat :=
  let n := text.length
  let e := min (start + chunkSize) n
  let chunkText := (text.drop start).take (e - start)
  let breakPoint :=
    if e < n then
      let lastSentenceEnd := lastDotSpace chunkText
      if 10 * lastSentenceEnd > 7 * (chunkSize : Int) then
        start + lastSentenceEnd.toNat + 2
      else e
    else e
  max (start + chunkSize - overlap) breakPoint

end RagNews.Ingest

namespace RagNews.NewsIngest

/-!
The older chunker `createTextChunks` of the unnamed ingestion script
(`src/unnamed/part_002`, `ingestNews.js`).
-/

open RagNews.Ingest (Chunk chunkIdOf)

/-- Input article of `ingestNews` (has a `description` as well). -/
structure Article2 where
  id : String
  title : String
  description : String
  content : String

/-- The `fullText` assembled by `createTextChunks`. -/
def fullTextOf (a : Article2) : List Char :=
  (a.title ++ "\n\n" ++ a.description ++ "\n\n" ++ a.content).data

/-- The `chunkEnd` computed by one iteration of the `createTextChunks` loop:
the raw window end, moved back to the nearest sentence/newline boundary when
that boundary lies past half the window (`boundary > start + maxChunkSize *
0.5`, exact as `2 * boundary > 2 * start + maxChunkSize`). -/
def chunkEndOf (fullText : List Char) (maxChunkSize : Nat) (start : Int) : Int :=
  let n : Int := fullText.length
  let e := min (start + (maxChunkSize : Int)) n
  if e < n then
    let lastPeriod := lastIndexOfFrom fullText '.' e
    let lastNewline := lastIndexOfFrom fullText '\n' e
    let boundary := max lastPeriod lastNewline
    if 2 * boundary > 2 * start + (maxChunkSize : Int) then boundary + 1 else e
  else e

/-- The next window start of the `createTextChunks` loop:
`start = chunkEnd - overlap`. -/
def nextStartOf (fullText : List Char) (maxChunkSize overlap : Nat) (start : Int) : Int :=
  chunkEndOf fullText maxChunkSize start - (overlap : Int)

/-- The `while (start < fullText.length)` loop of `createTextChunks`, with
explicit fuel; `none` means the fuel was exhausted with the loop still
running. -/
def chunkLoop2 (artId : String) (fullText : List Char) (maxChunkSize overlap : Nat) :
    Nat → Int → Nat → List Chunk → Option (List Chunk)
  | 0, _, _, _ => none
  | fuel + 1, start, chunkIndex, acc =>
    if start < (fullText.length : Int) then
      let chunkEnd := chunkEndOf fullText maxChunkSize start
      let chunkText := trimCL (jsSlice fullText start chunkEnd)
      let acc2 :=
        if 50 < chunkText.length then
          acc ++ [⟨chunkIdOf artId chunkIndex, chunkText, chunkIndex⟩]
        else acc
      let idx2 := if 50 < chunkText.length then chunkIndex + 1 else chunkIndex
      let start2 := chunkEnd - (overlap : Int)
      if start2 ≥ chunkEnd then some acc2
      else chunkLoop2 artId fullText maxChunkSize overlap fuel start2 idx2 acc2
    else some acc

/-- `createTextChunks(article, maxChunkSize, overlap)` with the given fuel. -/
def createTextChunks (article : Article2)
    (maxChunkSize : Nat := 1000) (overlap : Nat := 200) (fuel : Nat) :
    Option (List Chunk) :=
  chunkLoop2 article.id (fullTextOf article) maxChunkSize overlap fuel 0 0 []

/-- A concrete article whose `fullText` is 300 letters followed by the four
separator newlines: 304 characters, no `'. '` and no mid-text boundary. -/
def stuckArticle : Article2 :=
  ⟨"a1", String.mk (List.replicate 300 'a'), "", ""⟩

/-- The 304-character `fullText` of `stuckArticle`. -/
def stuckText : List Char := List.replicate 300 'a' ++ ['\n', '\n', '\n', '\n']

end RagNews.NewsIngest

namespace RagNews.Embedding

/-!
The embedding gateway `src/server/services/embeddingService.js`.  Vector
components are modelled as rationals; `Math.sqrt` and `Math.random` are
abstracted as function parameters of the environment (the dimension claim
holds for every choice of them).
-/

/-- The `preprocessText` of the service: collapse whitespace, trim, truncate
to 8192 characters preferring a word boundary past 90% of the limit (the
float threshold `maxLength * 0.9` rendered exactly as
`10 * lastSpace > 73728`). -/
def preprocessText (text : List Char) : List Char :=
  let cleaned := trimCL (collapseWs text)
  if 8192 < cleaned.length then
    let c2 := cleaned.take 8192
    let lastSpace := lastIndexOfChar c2 ' '
    if 10 * lastSpace > (73728 : Int) then c2.take lastSpace.toNat else c2
  else cleaned

/-- Bump one histogram bucket: `embedding[index] += 1`. -/
def bumpBucket (l : List ℚ) (i : Nat) : List ℚ := l.set i (l.getD i 0 + 1)

/-- Add the bounded perturbation `(Math.random() - 0.5) * 0.01` to every
component; `noise k` stands for the `k`-th call to `Math.random()`. -/
def addNoise (noise : Nat → ℚ) (l : List ℚ) : List ℚ :=
  (l.zip (List.range l.length)).map fun p => p.1 + (noise p.2 - 1/2) * (1/100)

/-- `generateFallbackEmbedding(text, dimensions)`: per-character code-point
histogram folded into `dimensions` buckets, L2-normalised (via the abstract
`sqrtQ` standing for `Math.sqrt`), then perturbed. -/
def generateFallbackEmbedding (sqrtQ : ℚ → ℚ) (noise : Nat → ℚ)
    (text : List Char) (dimensions : Nat := 768) : List ℚ :=
  let base : List ℚ := List.replicate dimensions 0
  let hist := text.foldl (fun emb c => bumpBucket emb (c.toNat % dimensions)) base
  let magnitude := sqrtQ (hist.foldl (fun sum v => sum + v * v) 0)
  let normed := if 0 < magnitude then hist.map (fun v => v / magnitude) else hist
  addNoise noise normed

/-- Environment of `generateEmbedding`: the configured key (the empty string
is the JS falsy "not configured"), the remote call outcome as a function of
the request batch, and the abstracted numeric primitives. -/
structure EmbEnv where
  jinaApiKey : String
  apiResult : List (List Char) → Except String (List (List ℚ))
  sqrtQ : ℚ → ℚ
  noise : Nat → ℚ

/-- `generateEmbedding(text)`.  An empty `text` is JS-falsy and throws; with
no API key the fallback is used directly; a remote failure, or a remote
success carrying no data rows, falls back as well (the service catches the
error it throws for the empty data case). -/
def generateEmbedding (env : EmbEnv) (text : String) : Except String (List ℚ) :=
  if text.data.isEmpty then
    Except.error "Text must be a non-empty string"
  else
    let cleanText := preprocessText text.data
    if env.jinaApiKey = "" then
      Except.ok (generateFallbackEmbedding env.sqrtQ env.noise cleanText)
    else
      match env.apiResult [cleanText] with
      | Except.ok (emb :: _) => Except.ok emb
      | Except.ok [] => Except.ok (generateFallbackEmbedding env.sqrtQ env.noise cleanText)
      | Except.error _ => Except.ok (generateFallbackEmbedding env.sqrtQ env.noise cleanText)

end RagNews.Embedding

namespace RagNews.VStore

/-!
The vector index `src/server/services/vectorStore.js`, modelled in its
in-process fallback configuration (`client === null`), which is the code
that lives entirely in this repository.  The id sent to the remote backend
(`hashId`) is modelled as well, since the deduplication claim is about it.
-/

/-- Wrap an integer to a 32-bit two's-complement value, the effect of the JS
`| 0`-style coercion performed by `hash & hash` and by `<<`. -/
def toInt32 (n : Int) : Int :=
  let m := n % 4294967296
  if m < 2147483648 then m else m - 4294967296

/-- One step of `hashId`: `hash = ((hash << 5) - hash) + char; hash = hash &
hash`.  The shift wraps at 32 bits; the subtraction and addition are exact
(JS doubles are exact at these magnitudes); the `&` wraps the result. -/
def hashStep (h : Int) (c : Nat) : Int := toInt32 (toInt32 (h * 32) - h + c)

/-- `hashId(str)`: the 31-ish string hash followed by `Math.abs`. -/
def hashId (s : String) : Nat :=
  (s.data.foldl (fun h c => hashStep h c.toNat) 0).natAbs

/-- Payload stored with a vector record (fields the code reads later;
`Option` marks fields that JS may leave `undefined`). -/
structure VPayload where
  text : List Char := []
  articleId : String := ""
  articleTitle : Option String := none
  articleUrl : Option String := none
  source : Option String := none
  publishDate : Option String := none
  chunkIndex : Nat := 0
  totalChunks : Nat := 0
  category : String := ""
deriving DecidableEq

/-- A stored record of the in-memory fallback map. -/
structure VSRecord where
  vector : List ℚ
  payload : VPayload
deriving DecidableEq

/-- The mutable state of a `VectorStore` instance running on the in-memory
fallback. -/
structure VSState where
  vectorSize : Nat
  isInitialized : Bool
  inMemoryVectors : List (String × VSRecord)
deriving DecidableEq

/-- Argument object of `upsertVector` / element of `upsertBatch`. -/
structure UpsertData where
  id : String
  vector : List ℚ
  payload : VPayload
deriving DecidableEq

/-- The point id `this.hashId(id)` sent to the remote index by
`upsertVector`/`upsertBatch`. -/
def upsertPointId (d : UpsertData) : Nat := hashId d.id

/-- `upsertVector(data)`: initialization guard, JS-falsy id guard, the
dimension check, then the in-memory `Map.set`. -/
def upsertVector (s : VSState) (d : UpsertData) : Except String VSState :=
  if !s.isInitialized then
    Except.error "Vector store not initialized"
  else if d.id = "" then
    Except.error "Invalid vector data: id, vector array required"
  else if d.vector.length ≠ s.vectorSize then
    Except.error ("Vector size mismatch: expected " ++ toString s.vectorSize ++
      ", got " ++ toString d.vector.length)
  else
    Except.ok { s with
      inMemoryVectors := mapSet s.inMemoryVectors d.id ⟨d.vector, d.payload⟩ }

/-- `upsertBatch(vectorsData)`: initialization and non-empty guards, then the
per-element in-memory `Map.set` — the source performs no dimension check on
batch elements. -/
def upsertBatch (s : VSState) (ds : List UpsertData) : Except String VSState :=
  if !s.isInitialized then
    Except.error "Vector store not initialized"
  else if ds.isEmpty then
    Except.error "Invalid vectors data: expected non-empty array"
  else
    Except.ok { s with
      inMemoryVectors :=
        ds.foldl (fun m d => mapSet m d.id ⟨d.vector, d.payload⟩) s.inMemoryVectors }

/-- `countVectors()` on the fallback: the map size. -/
def countVectors (s : VSState) : Except String Nat :=
  if !s.isInitialized then Except.error "Vector store not initialized"
  else Except.ok s.inMemoryVectors.length

/-- Convenience: run an upsert and keep the old state when it errors (only
used to phrase concrete theorems; errors leave the store untouched). -/
def upsertOr (s : VSState) (d : UpsertData) : VSState :=
  match upsertVector s d with
  | Except.ok s2 => s2
  | Except.error _ => s

/-- Convenience: `upsertBatch` result, old state on error. -/
def upsertBatchOr (s : VSState) (ds : List UpsertData) : VSState :=
  match upsertBatch s ds with
  | Except.ok s2 => s2
  | Except.error _ => s

end RagNews.VStore

namespace RagNews.RedisKV

/-!
The key-value client `src/server/services/redisClient.js`.  The in-process
fallback structures (`inMemoryStore`, `inMemoryLists`) and the mode flags
are modelled exactly; the networked redis commands, whose behavior lives
outside this repository, are abstracted as `Except`-valued oracles in a
`NetEnv`.  Every operation also reports whether it touched the networked
client.
-/

/-- The base64 alphabet used by Node's `Buffer.toString('base64')`. -/
def b64Alphabet : List Char :=
  "ABCDEFGHIJKLMNOPQRSTUVWXYZabcdefghijklmnopqrstuvwxyz0123456789+/".data

/-- Character for one 6-bit group. -/
def b64Char (n : Nat) : Char := b64Alphabet.getD n 'A'

/-- Standard base64 of a byte list, with padding. -/
def b64Encode : List Nat → List Char
  | [] => []
  | [a] => [b64Char (a / 4), b64Char (a % 4 * 16), '=', '=']
  | [a, b] => [b64Char (a / 4), b64Char (a % 4 * 16 + b / 16), b64Char (b % 16 * 4), '=']
  | a :: b :: c :: rest =>
    b64Char (a / 4) :: b64Char (a % 4 * 16 + b / 16) ::
      b64Char (b % 16 * 4 + c / 64) :: b64Char (c % 64) :: b64Encode rest

/-- UTF-8 encoding of one code point. -/
def utf8Char (n : Nat) : List Nat :=
  if n < 128 then [n]
  else if n < 2048 then [192 + n / 64, 128 + n % 64]
  else if n < 65536 then [224 + n / 4096, 128 + n / 64 % 64, 128 + n % 64]
  else [240 + n / 262144, 128 + n / 4096 % 64, 128 + n / 64 % 64, 128 + n % 64]

/-- UTF-8 bytes of a string, the `Buffer.from(query)`. -/
def utf8Bytes (s : String) : List Nat :=
  s.data.foldr (fun c acc => utf8Char c.toNat ++ acc) []

/-- The cache key `` `query:${Buffer.from(query).toString('base64')}` ``. -/
def cacheKey (q : String) : String :=
  "query:" ++ String.mk (b64Encode (utf8Bytes q))

/-- An `inMemoryStore` entry `{data, expires}` (`expires` in ms since
epoch). -/
structure StoreEntry (V : Type) where
  data : V
  expires : Int
deriving DecidableEq

/-- Input message `{role, content, ...}` handed to `addMessage`. -/
structure MsgIn where
  role : String
  content : String
deriving DecidableEq

/-- Stored message: the input spread together with the write-time
`timestamp` (`{...message, timestamp: new Date().toISOString()}`). -/
structure StoredMsg where
  msg : MsgIn
  timestamp : String
deriving DecidableEq

/-- `config.session.chatHistoryLimit` (default 50). -/
def chatHistoryLimit : Nat := 50

/-- The mutable fields of the `RedisClient` singleton.  `V` is the type of
the JSON-ish values kept in `inMemoryStore`; `hasClient` abstracts
`this.client !== null`. -/
structure RCState (V : Type) where
  isConnected : Bool := false
  fallbackMode : Bool := false
  connectionAttempted : Bool := false
  hasClient : Bool := false
  inMemoryStore : List (String × StoreEntry V) := []
  inMemoryLists : List (String × List StoredMsg) := []

/-- The `error` event handler installed by `_attemptConnection`. -/
def onError {V : Type} (s : RCState V) : RCState V :=
  if !s.fallbackMode then { s with fallbackMode := true, isConnected := false } else s

/-- The `connect` event handler installed by `_attemptConnection`: it sets
`isConnected` and clears `fallbackMode`. -/
def onConnect {V : Type} (s : RCState V) : RCState V :=
  { s with isConnected := true, fallbackMode := false }

/-- The `disconnect` event handler installed by `_attemptConnection`. -/
def onDisconnect {V : Type} (s : RCState V) : RCState V :=
  { s with isConnected := false, fallbackMode := true }

/-- Outcomes of the networked redis commands, one oracle per data-path
method (the remote store itself is outside the repository). -/
structure NetEnv (V : Type) where
  setSessionR : Except Unit Unit := Except.ok ()
  getSessionR : Except Unit (Option V) := Except.ok none
  delSessionR : Except Unit Unit := Except.ok ()
  addMessageR : Except Unit Unit := Except.ok ()
  getChatHistoryR : Except Unit (List StoredMsg) := Except.ok []
  clearChatHistoryR : Except Unit Unit := Except.ok ()
  cacheResultR : Except Unit Unit := Except.ok ()
  getCachedR : Except Unit (Option V) := Except.ok none

/-- `getClient()`: `null` in fallback mode or when the client is missing or
not connected. -/
def getClient {V : Type} (s : RCState V) : Option Unit :=
  if s.fallbackMode then none
  else if !s.hasClient || !s.isConnected then none
  else some ()

/-- The fallback-branch body of `setSession`. -/
def setSessionFB {V : Type} (s : RCState V) (sessionId : String) (data : V)
    (ttl now : Int) : RCState V :=
  { s with inMemoryStore :=
      mapSet s.inMemoryStore ("session:" ++ sessionId) ⟨data, now + ttl * 1000⟩ }

/-- `setSession(sessionId, data, ttl)` (ttl defaults to one week).  The
non-fallback branch writes through the client; its `catch` writes the
in-memory entry without changing the mode flag. -/
def setSession {V : Type} (net : NetEnv V) (s : RCState V) (sessionId : String)
    (data : V) (ttl : Int := 604800) (now : Int := 0) : RCState V × Bool :=
  if s.fallbackMode then (setSessionFB s sessionId data ttl now, false)
  else
    match net.setSessionR with
    | Except.ok _ => (s, true)
    | Except.error _ => (setSessionFB s sessionId data ttl now, true)

/-- The fallback-branch body of `getSession`: expired entries are deleted on
read. -/
def getSessionFB {V : Type} (s : RCState V) (sessionId : String) (now : Int) :
    Option V × RCState V :=
  match mapGet s.inMemoryStore ("session:" ++ sessionId) with
  | none => (none, s)
  | some e =>
    if now > e.expires then
      (none, { s with inMemoryStore := mapDelete s.inMemoryStore ("session:" ++ sessionId) })
    else (some e.data, s)

/-- `getSession(sessionId)`.  The networked branch (key-type dispatch and the
legacy string-to-hash migration) is abstracted by the oracle; its `catch`
reads the in-memory entry. -/
def getSession {V : Type} (net : NetEnv V) (s : RCState V) (sessionId : String)
    (now : Int := 0) : Option V × RCState V × Bool :=
  if s.fallbackMode then
    let r := getSessionFB s sessionId now
    (r.1, r.2, false)
  else
    match net.getSessionR with
    | Except.ok v => (v, s, true)
    | Except.error _ =>
      let r := getSessionFB s sessionId now
      (r.1, r.2, true)

/-- The fallback-branch body of `deleteSession`. -/
def deleteSessionFB {V : Type} (s : RCState V) (sessionId : String) : RCState V :=
  { s with inMemoryStore := mapDelete s.inMemoryStore ("session:" ++ sessionId) }

/-- `deleteSession(sessionId)`.  With a null/disconnected client, or on a
command error, the code flips `fallbackMode` and re-enters itself, landing
in the fallback branch. -/
def deleteSession {V : Type} (net : NetEnv V) (s : RCState V) (sessionId : String) :
    RCState V × Bool :=
  if s.fallbackMode then (deleteSessionFB s sessionId, false)
  else
    match getClient s with
    | some _ =>
      match net.delSessionR with
      | Except.ok _ => (s, true)
      | Except.error _ =>
        (deleteSessionFB { s with fallbackMode := true } sessionId, true)
    | none => (deleteSessionFB { s with fallbackMode := true } sessionId, false)

/-- The fallback-branch body of `addMessage`: unshift the stamped message,
then `splice(chatHistoryLimit)` to keep only the newest entries. -/
def addMessageFB {V : Type} (s : RCState V) (sessionId : String) (m : MsgIn)
    (now : String) : RCState V :=
  let key := "chat:" ++ sessionId
  let list := (mapGet s.inMemoryLists key).getD []
  let list2 := (⟨m, now⟩ : StoredMsg) :: list
  let list3 := if chatHistoryLimit < list2.length then list2.take chatHistoryLimit else list2
  { s with inMemoryLists := mapSet s.inMemoryLists key list3 }

/-- `addMessage(sessionId, message)` (lPush + lTrim + expire on the
networked path; mode flip and re-entry on failure). -/
def addMessage {V : Type} (net : NetEnv V) (s : RCState V) (sessionId : String)
    (m : MsgIn) (now : String := "") : RCState V × Bool :=
  if s.fallbackMode then (addMessageFB s sessionId m now, false)
  else
    match getClient s with
    | some _ =>
      match net.addMessageR with
      | Except.ok _ => (s, true)
      | Except.error _ => (addMessageFB { s with fallbackMode := true } sessionId m now, true)
    | none => (addMessageFB { s with fallbackMode := true } sessionId m now, false)

/-- The fallback-branch body of `getChatHistory`: the newest `limit`
messages, reversed so the most recent comes last. -/
def getChatHistoryFB {V : Type} (s : RCState V) (sessionId : String) (limit : Nat) :
    List StoredMsg :=
  (((mapGet s.inMemoryLists ("chat:" ++ sessionId)).getD []).take limit).reverse

/-- `getChatHistory(sessionId, limit)` (limit defaults to 20). -/
def getChatHistory {V : Type} (net : NetEnv V) (s : RCState V) (sessionId : String)
    (limit : Nat := 20) : List StoredMsg × RCState V × Bool :=
  if s.fallbackMode then (getChatHistoryFB s sessionId limit, s, false)
  else
    match getClient s with
    | some _ =>
      match net.getChatHistoryR with
      | Except.ok l => (l.reverse, s, true)
      | Except.error _ =>
        (getChatHistoryFB { s with fallbackMode := true } sessionId limit,
          { s with fallbackMode := true }, true)
    | none =>
      (getChatHistoryFB { s with fallbackMode := true } sessionId limit,
        { s with fallbackMode := true }, false)

/-- The fallback-branch body of `clearChatHistory`. -/
def clearChatHistoryFB {V : Type} (s : RCState V) (sessionId : String) : RCState V :=
  { s with inMemoryLists := mapDelete s.inMemoryLists ("chat:" ++ sessionId) }

/-- `clearChatHistory(sessionId)`. -/
def clearChatHistory {V : Type} (net : NetEnv V) (s : RCState V) (sessionId : String) :
    RCState V × Bool :=
  if s.fallbackMode then (clearChatHistoryFB s sessionId, false)
  else
    match getClient s with
    | some _ =>
      match net.clearChatHistoryR with
      | Except.ok _ => (s, true)
      | Except.error _ => (clearChatHistoryFB { s with fallbackMode := true } sessionId, true)
    | none => (clearChatHistoryFB { s with fallbackMode := true } sessionId, false)

/-- The fallback-branch body of `cacheQueryResult`: write the entry with its
expiry fixed at `now + ttl * 1000`. -/
def cacheQueryResultFB {V : Type} (s : RCState V) (query : String) (result : V)
    (ttl now : Int) : RCState V :=
  { s with inMemoryStore := mapSet s.inMemoryStore (cacheKey query) ⟨result, now + ttl * 1000⟩ }

/-- `cacheQueryResult(query, result, ttl)` (ttl defaults to 1800 s). -/
def cacheQueryResult {V : Type} (net : NetEnv V) (s : RCState V) (query : String)
    (result : V) (ttl : Int := 1800) (now : Int := 0) : RCState V × Bool :=
  if s.fallbackMode then (cacheQueryResultFB s query result ttl now, false)
  else
    match getClient s with
    | some _ =>
      match net.cacheResultR with
      | Except.ok _ => (s, true)
      | Except.error _ =>
        (cacheQueryResultFB { s with fallbackMode := true } query result ttl now, true)
    | none => (cacheQueryResultFB { s with fallbackMode := true } query result ttl now, false)

/-- The fallback-branch body of `getCachedQueryResult`: a hit returns the
stored value unchanged; an expired entry is deleted and misses; the read
never rewrites `expires`. -/
def getCachedQueryResultFB {V : Type} (s : RCState V) (query : String) (now : Int) :
    Option V × RCState V :=
  match mapGet s.inMemoryStore (cacheKey query) with
  | none => (none, s)
  | some e =>
    if now > e.expires then
      (none, { s with inMemoryStore := mapDelete s.inMemoryStore (cacheKey query) })
    else (some e.data, s)

/-- `getCachedQueryResult(query)`. -/
def getCachedQueryResult {V : Type} (net : NetEnv V) (s : RCState V) (query : String)
    (now : Int := 0) : Option V × RCState V × Bool :=
  if s.fallbackMode then
    let r := getCachedQueryResultFB s query now
    (r.1, r.2, false)
  else
    match getClient s with
    | some _ =>
      match net.getCachedR with
      | Except.ok v => (v, s, true)
      | Except.error _ =>
        let r := getCachedQueryResultFB { s with fallbackMode := true } query now
        (r.1, r.2, true)
    | none =>
      let r := getCachedQueryResultFB { s with fallbackMode := true } query now
      (r.1, r.2, false)

end RagNews.RedisKV

namespace RagNews.Rag

/-!
The orchestrator `src/server/services/ragService.js`: `processQuery`,
`extractSources` and the recency-aware retrieval.  Each dependency call is
an `Except`-valued oracle in a `RagEnv`; the `try`-block of `processQuery`
is `processQueryCore`, and `processQuery` itself is that computation with
its `catch` handler.
-/

/-- A search hit as returned by `vectorStore.searchSimilar`; the payload may
be absent (`with_payload` could yield nothing). -/
structure SearchResult where
  id : Nat
  score : ℚ
  payload : Option RagNews.VStore.VPayload
deriving DecidableEq

/-- A cited source as assembled by `extractSources`. -/
structure RSource where
  title : String
  url : String
  source : String
  publishDate : Option String
  relevanceScore : ℚ
deriving DecidableEq

/-- Message shape used for conversation history inside the orchestrator. -/
structure HMsg where
  role : String
  content : String
deriving DecidableEq

/-- `aiResponse` returned by `geminiService.generateResponse`
(`tokensUsed` may be `undefined`, hence the `Option`). -/
structure GenOut where
  response : String
  model : String
  tokensUsed : Option Nat
deriving DecidableEq

/-- The response object built by `processQuery`. -/
structure QueryResponse where
  query : String
  response : String
  model : String
  sources : List RSource
  contextUsed : Nat
  sessionId : String
  timestamp : String
  cached : Bool
  tokensUsed : Nat
  errorMsg : Option String
deriving DecidableEq

/-- JS truthiness of the `payload && payload.articleUrl` guard. -/
def urlOf (r : SearchResult) : Option String :=
  match r.payload with
  | none => none
  | some p =>
    match p.articleUrl with
    | none => none
    | some u => if u = "" then none else some u

/-- The loop of `extractSources`: walk the results, skip entries without a
usable url or whose url was already seen, and build the source list in input
order. -/
def extractSourcesAux : List SearchResult → List String → List RSource
  | [], _ => []
  | r :: rs, seen =>
    match urlOf r with
    | none => extractSourcesAux rs seen
    | some u =>
      if u ∈ seen then extractSourcesAux rs seen
      else
        { title := ((r.payload.bind (fun p => p.articleTitle)).filter (fun t => t ≠ "")).getD
            "Untitled Article"
          url := u
          source := ((r.payload.bind (fun p => p.source)).filter (fun t => t ≠ "")).getD
            "Unknown Source"
          publishDate := r.payload.bind (fun p => p.publishDate)
          relevanceScore := r.score } :: extractSourcesAux rs (u :: seen)

/-- `extractSources(results)`: the deduplicated source list, capped at 5 by
the final `slice(0, 5)`. -/
def extractSources (results : List SearchResult) : List RSource :=
  (extractSourcesAux results []).take 5

/-- Detection of recency intent:
`query.toLowerCase().includes('today' | 'recent' | 'latest' | 'current')`. -/
def isRecentNewsQuery (query : String) : Bool :=
  let lq := toLowerCL query.data
  hasSub lq "today".data || hasSub lq "recent".data ||
    hasSub lq "latest".data || hasSub lq "current".data

/-- The date filter sent for recent-news queries: publishDate at least
`now - 3 * 24 * 60 * 60 * 1000` ms. -/
structure RFilter where
  publishDateGte : Int
deriving DecidableEq

/-- `threeDaysAgo` from the wall clock in ms. -/
def recencyFilter (nowMs : Int) : RFilter := ⟨nowMs - 259200000⟩

/-- Options of `processQuery` with their defaults
(`maxResults = config.rag.topKResults = 5`, `minSimilarity = 0.3`, written
as the exact rational `mkRat 3 10`). -/
structure QOptions where
  useCache : Bool := true
  includeHistory : Bool := true
  maxResults : Nat := 5
  minSimilarity : ℚ := mkRat 3 10
deriving DecidableEq

/-- The dependency oracles of one `processQuery` run. -/
structure RagEnv where
  isInitialized : Bool
  nowIso : String
  nowMs : Int
  cacheCheck : String → Except String (Option QueryResponse)
  embed : String → Except String (List ℚ)
  search : List ℚ → Nat → Option RFilter → Except String (List SearchResult)
  history : Nat → Except String (List HMsg)
  generate : String → List SearchResult → List HMsg → Except String GenOut
  cacheWrite : QueryResponse → Except String Unit
  addMsgUser : String → Except String Unit
  addMsgAssistant : QueryResponse → Except String Unit

/-- The retrieval step: recency queries first try `maxResults * 2`
candidates with the publish-date filter and fall back to an unfiltered
search of the same size when that call fails; other queries search
unfiltered with `maxResults * 2` directly. -/
def retrieveStep (env : RagEnv) (query : String) (emb : List ℚ) (maxResults : Nat) :
    Except String (List SearchResult) :=
  if isRecentNewsQuery query then
    match env.search emb (maxResults * 2) (some (recencyFilter env.nowMs)) with
    | Except.ok r => Except.ok r
    | Except.error _ => env.search emb (maxResults * 2) none
  else
    env.search emb (maxResults * 2) none

/-- The `try` block of `processQuery`: cache check, embedding, retrieval,
similarity filter and truncation, history fetch, generation, response
assembly, cache write and history persistence. -/
def processQueryCore (env : RagEnv) (query sessionId : String) (opts : QOptions) :
    Except String QueryResponse := do
  let cachedResult ← if opts.useCache then env.cacheCheck query else pure none
  match cachedResult with
  | some c => return { c with cached := true, timestamp := env.nowIso }
  | none => pure ()
  let queryEmbedding ← env.embed query
  let searchResults ← retrieveStep env query queryEmbedding opts.maxResults
  let relevantResults :=
    (searchResults.filter fun r => opts.minSimilarity ≤ r.score).take opts.maxResults
  let conversationHistory ← if opts.includeHistory then env.history 10 else pure []
  let ai ← env.generate query relevantResults conversationHistory
  let response : QueryResponse :=
    { query := query
      response := ai.response
      model := ai.model
      sources := extractSources relevantResults
      contextUsed := relevantResults.length
      sessionId := sessionId
      timestamp := env.nowIso
      cached := false
      tokensUsed := ai.tokensUsed.getD 0
      errorMsg := none }
  if opts.useCache ∧ response.response ≠ "" then
    let _ ← env.cacheWrite response
  let _ ← env.addMsgUser query
  let _ ← env.addMsgAssistant response
  return response

/-- The fallback response assembled in `processQuery`'s `catch` handler (its
own history writes are wrapped in an inner try/catch and cannot escape). -/
def fallbackResponse (query sessionId nowIso errMsg : String) : QueryResponse :=
  { query := query
    response := "I apologize, but I encountered an error while processing your question: \"" ++
      query ++ "\". Please try again or rephrase your question."
    model := "fallback"
    sources := []
    contextUsed := 0
    sessionId := sessionId
    timestamp := nowIso
    cached := false
    tokensUsed := 0
    errorMsg := some errMsg }

/-- `processQuery(query, sessionId, options)`: the not-initialized guard is
the single uncaught throw; every failure inside the `try` block is converted
to the fallback response. -/
def processQuery (env : RagEnv) (query sessionId : String) (opts : QOptions) :
    Except String QueryResponse :=
  if !env.isInitialized then Except.error "RAG service not initialized"
  else
    match processQueryCore env query sessionId opts with
    | Except.ok r => Except.ok r
    | Except.error e => Except.ok (fallbackResponse query sessionId env.nowIso e)

end RagNews.Rag

namespace RagNews.RedisKV

/-- Stamp a list of `(message, write-time)` pairs into stored messages. -/
def storedOf (pairs : List (MsgIn × String)) : List StoredMsg :=
  pairs.map fun p => ⟨p.1, p.2⟩

/-- Run a sequence of `addMessage` calls for one session. -/
def appendMsgs {V : Type} (net : NetEnv V) (sid : String)
    (pairs : List (MsgIn × String)) (s : RCState V) : RCState V :=
  pairs.foldl (fun st p => (addMessage net st sid p.1 p.2).1) s

/-- The in-process chat log of a session (most recent first), empty when the
key is absent. -/
def chatListOf {V : Type} (s : RCState V) (sid : String) : List StoredMsg :=
  (mapGet s.inMemoryLists ("chat:" ++ sid)).getD []

/-- A client state that has entered fallback mode (concrete test state). -/
def sFBe : RCState Nat :=
  { fallbackMode := true, isConnected := false, connectionAttempted := true,
    hasClient := true }

/-- A network oracle where every command succeeds (its content is irrelevant
to fallback-mode runs). -/
def netOkN : NetEnv Nat := {}

/-- Sixty distinct messages together with write times. -/
def msgs60 : List (MsgIn × String) :=
  (List.range 60).map fun i => (⟨"user", toString i⟩, "t" ++ toString i)

end RagNews.RedisKV

namespace RagNews.VStore

/-- Empty payload (all JS-optional fields absent). -/
def pay0 : VPayload := {}

/-- A vector of the configured dimension 768. -/
def vec768 : List ℚ := List.replicate 768 1

/-- Initialized in-memory store with the default dimension 768 and no
records. -/
def vs0 : VSState := ⟨768, true, []⟩

/-- Upsert argument carrying the chunk id of article `"a"`, chunk 0. -/
def dA : UpsertData := ⟨"a_chunk_0", vec768, pay0⟩

/-- Upsert argument carrying the chunk id of article `"b"`, chunk 0 (same
text as `dA`'s chunk, different article). -/
def dB : UpsertData := ⟨"b_chunk_0", vec768, pay0⟩

/-- A batch element whose vector has length 1 instead of 768. -/
def dBad : UpsertData := ⟨"x", [1], pay0⟩

end RagNews.VStore

namespace RagNews.Ingest

/-- Article `"a"`: title and body short enough for a single chunk. -/
def artA : Article := ⟨"a", "Same title", "Same body."⟩

/-- Article `"b"` with the identical title and body. -/
def artB : Article := ⟨"b", "Same title", "Same body."⟩

/-- The common chunk text of `artA`/`artB`. -/
def chunkTextAB : List Char := "Same title\n\nSame body.".data

/-- The single chunk produced for `artA`. -/
def cA : Chunk := ⟨"a_chunk_0", chunkTextAB, 0⟩

/-- The single chunk produced for `artB`. -/
def cB : Chunk := ⟨"b_chunk_0", chunkTextAB, 0⟩

end RagNews.Ingest

namespace RagNews.Embedding

/-- Environment with no API key and inert numeric primitives. -/
def env0E : EmbEnv := ⟨"", fun _ => Except.ok [], fun _ => 0, fun _ => 0⟩

end RagNews.Embedding

namespace RagNews.Rag

/-- Environment whose embedding step fails (everything else succeeds). -/
def envFail : RagEnv :=
  { isInitialized := true
    nowIso := "2026-01-01T00:00:00.000Z"
    nowMs := 1767225600000
    cacheCheck := fun _ => Except.ok none
    embed := fun _ => Except.error "embedding failed"
    search := fun _ _ _ => Except.ok []
    history := fun _ => Except.ok []
    generate := fun _ _ _ => Except.ok ⟨"ok", "gemini-pro", some 1⟩
    cacheWrite := fun _ => Except.ok ()
    addMsgUser := fun _ => Except.ok ()
    addMsgAssistant := fun _ => Except.ok () }

/-- Environment whose date-filtered search always fails while the unfiltered
search succeeds. -/
def env9 : RagEnv :=
  { isInitialized := true
    nowIso := "2026-01-01T00:00:00.000Z"
    nowMs := 1767225600000
    cacheCheck := fun _ => Except.ok none
    embed := fun _ => Except.ok []
    search := fun _ _ f =>
      match f with
      | some _ => Except.error "date filtering failed"
      | none => Except.ok []
    history := fun _ => Except.ok []
    generate := fun _ _ _ => Except.ok ⟨"ok", "gemini-pro", some 1⟩
    cacheWrite := fun _ => Except.ok ()
    addMsgUser := fun _ => Except.ok ()
    addMsgAssistant := fun _ => Except.ok () }

/-- A search hit with a good score but no `articleUrl` in its payload. -/
def rNoUrl : SearchResult :=
  ⟨1, mkRat 1 2, some { RagNews.VStore.pay0 with articleUrl := none }⟩

/-- The one-element result list of `rNoUrl`. -/
def rs0 : List SearchResult := [rNoUrl]

/-- Environment whose retrieval returns only `rNoUrl` and whose generation
succeeds. -/
def envNoUrl : RagEnv :=
  { isInitialized := true
    nowIso := "2026-01-01T00:00:00.000Z"
    nowMs := 1767225600000
    cacheCheck := fun _ => Except.ok none
    embed := fun _ => Except.ok []
    search := fun _ _ _ => Except.ok rs0
    history := fun _ => Except.ok []
    generate := fun _ _ _ => Except.ok ⟨"Answer", "gemini-pro", some 3⟩
    cacheWrite := fun _ => Except.ok ()
    addMsgUser := fun _ => Except.ok ()
    addMsgAssistant := fun _ => Except.ok () }

/-- The response `processQuery` produces under `envNoUrl`: one context item
used, yet an empty source list. -/
def resp10 : QueryResponse :=
  { query := "question"
    response := "Answer"
    model := "gemini-pro"
    sources := []
    contextUsed := 1
    sessionId := "s1"
    timestamp := "2026-01-01T00:00:00.000Z"
    cached := false
    tokensUsed := 3
    errorMsg := none }

end RagNews.Rag

/-! Helper theorems about the embedded definitions. -/

namespace RagNews.Ingest

/-- The loop of `createTextChunksWithOverlap` advances its window start by at
least `chunkSize - overlap` per iteration. -/
theorem stepStartW_progress (text : List Char) (chunkSize overlap start : Nat)
    (h : overlap < chunkSize) : start < stepStartW text chunkSize overlap start := by
  unfold stepStartW
  have h1 : start < start + chunkSize - overlap := by omega
  exact lt_of_lt_of_le h1 (le_max_left _ _)

end RagNews.Ingest

namespace RagNews.Embedding

theorem bumpBucket_length (l : List ℚ) (i : Nat) :
    (bumpBucket l i).length = l.length := by
  simp [bumpBucket]

theorem hist_length (cs : List Char) (d : Nat) :
    ∀ l : List ℚ,
      (cs.foldl (fun emb c => bumpBucket emb (c.toNat % d)) l).length = l.length := by
  induction cs with
  | nil => intro l; rfl
  | cons c t ih =>
    intro l
    simpa [List.foldl_cons, bumpBucket_length] using
      (ih (bumpBucket l (c.toNat % d))).trans (bumpBucket_length l _)

theorem addNoise_length (noise : Nat → ℚ) (l : List ℚ) :
    (addNoise noise l).length = l.length := by
  simp [addNoise]

/-- The fallback embedding always has exactly the requested dimension. -/
theorem generateFallbackEmbedding_length (sqrtQ : ℚ → ℚ) (noise : Nat → ℚ)
    (text : List Char) (d : Nat) :
    (generateFallbackEmbedding sqrtQ noise text d).length = d := by
  unfold generateFallbackEmbedding
  by_cases h : (0 : ℚ) <
      sqrtQ ((text.foldl (fun emb c => bumpBucket emb (c.toNat % d))
        (List.replicate d 0)).foldl (fun sum v => sum + v * v) 0)
  · simp [h, addNoise_length, hist_length]
  · simp [h, addNoise_length, hist_length]

/-- A string with empty character data is the empty string. -/
theorem string_of_data_nil (s : String) (h : s.data = []) : s = "" := by
  cases s
  simp_all [String.ext_iff]

end RagNews.Embedding

namespace RagNews.VStore

theorem mapSet_length_of_mem {α β : Type} [DecidableEq α]
    (m : List (α × β)) (k : α) (v : β) (h : (mapGet m k).isSome) :
    (mapSet m k v).length = m.length := by
  induction m with
  | nil => simp [mapGet] at h
  | cons p t ih =>
    by_cases hk : p.1 = k
    · simp [mapSet, hk]
    · simp [mapGet, hk] at h
      simp [mapSet, hk, ih h]

theorem mapGet_mapSet_self {α β : Type} [DecidableEq α]
    (m : List (α × β)) (k : α) (v : β) : mapGet (mapSet m k v) k = some v := by
  induction m with
  | nil => simp [mapSet, mapGet]
  | cons p t ih =>
    by_cases hk : p.1 = k
    · simp [mapSet, hk, mapGet]
    · simp [mapSet, hk, mapGet, ih]

end RagNews.VStore

/-! Claim theorems. -/

open RagNews RagNews.Ingest RagNews.NewsIngest RagNews.Embedding RagNews.VStore

/-- Claim C2, counterexample: `generateEmbedding` applied to the empty
string throws (`!text` is truthy for `''`), contradicting the claim that
every input — including the empty string — yields a vector without
throwing. -/
theorem claim_C2_counterexample :
    generateEmbedding env0E "" = Except.error "Text must be a non-empty string" := rfl

/-- Claim C2, amended: for every NON-empty input text, `generateEmbedding`
returns without throwing, and on the no-API-key path and on any
remote-failure path the returned vector has length exactly the configured
dimension 768. -/
theorem claim_C2_embedding_dimension (env : EmbEnv) (text : String) (h : text ≠ "") :
    (∃ v, generateEmbedding env text = Except.ok v) ∧
    (env.jinaApiKey = "" →
      generateEmbedding env text =
        Except.ok (generateFallbackEmbedding env.sqrtQ env.noise (preprocessText text.data)) ∧
      (generateFallbackEmbedding env.sqrtQ env.noise (preprocessText text.data)).length = 768) ∧
    (∀ e, env.apiResult [preprocessText text.data] = Except.error e →
      ∃ v, generateEmbedding env text = Except.ok v ∧ v.length = 768) := by
  have hne : text.data.isEmpty = false := by
    cases hd : text.data with
    | nil => exact absurd (string_of_data_nil text hd) h
    | cons a t => rfl
  unfold generateEmbedding
  rw [hne]
  simp only [Bool.false_eq_true, if_false]
  by_cases hk : env.jinaApiKey = ""
  · refine ⟨⟨_, by rw [if_pos hk]⟩, fun _ => ⟨by rw [if_pos hk], ?_⟩, fun e he => ?_⟩
    · exact generateFallbackEmbedding_length env.sqrtQ env.noise _ 768
    · exact ⟨_, by rw [if_pos hk], generateFallbackEmbedding_length env.sqrtQ env.noise _ 768⟩
  · rw [if_neg hk]
    refine ⟨?_, fun hk2 => absurd hk2 hk, fun e he => ?_⟩
    · cases ha : env.apiResult [preprocessText text.data] with
      | ok l => cases l with
        | nil => exact ⟨_, rfl⟩
        | cons a t => exact ⟨a, rfl⟩
      | error e => exact ⟨_, rfl⟩
    · rw [he]
      exact ⟨_, rfl, generateFallbackEmbedding_length env.sqrtQ env.noise _ 768⟩

/-- Claim C2, witness for the amended theorem at a concrete non-empty
input. -/
theorem claim_C2_witness :
    ("hello" : String) ≠ "" ∧
    ((∃ v, generateEmbedding env0E "hello" = Except.ok v) ∧
    (env0E.jinaApiKey = "" →
      generateEmbedding env0E "hello" =
        Except.ok (generateFallbackEmbedding env0E.sqrtQ env0E.noise
          (preprocessText ("hello" : String).data)) ∧
      (generateFallbackEmbedding env0E.sqrtQ env0E.noise
        (preprocessText ("hello" : String).data)).length = 768) ∧
    (∀ e, env0E.apiResult [preprocessText ("hello" : String).data] = Except.error e →
      ∃ v, generateEmbedding env0E "hello" = Except.ok v ∧ v.length = 768)) :=
  ⟨by decide, claim_C2_embedding_dimension env0E "hello" (by decide)⟩

set_option maxRecDepth 16384

/-- Claim C3: the claim is right about the intent (both chunking loops guard
against infinite loops) and `createTextChunksWithOverlap` does strictly
advance (last conjunct), but the `createTextChunks` loop of the unnamed
ingestion script does not: on the concrete 304-character article below the
window start goes 0 → 104 → 104 → ... — the computed next start equals the
current start while the loop condition `start < fullText.length` still holds
and the `start >= chunkEnd` break (104 ≥ 304) does not fire, so that loop
never terminates (20 fuel units are exhausted with the loop still
running). -/
theorem claim_C3_chunk_progress :
    fullTextOf stuckArticle = stuckText ∧
    nextStartOf stuckText 1000 200 0 = 104 ∧
    nextStartOf stuckText 1000 200 104 = 104 ∧
    ((104 : Int) < (stuckText.length : Int)) ∧
    chunkEndOf stuckText 1000 104 = 304 ∧
    ¬ ((104 : Int) ≥ chunkEndOf stuckText 1000 104) ∧
    createTextChunks stuckArticle 1000 200 20 = none ∧
    (∀ (text : List Char) (chunkSize overlap start : Nat), overlap < chunkSize →
      start < stepStartW text chunkSize overlap start) := by
  refine ⟨by decide, by decide, by decide, by decide, by decide, by decide, by decide,
    fun text chunkSize overlap start h => stepStartW_progress text chunkSize overlap start h⟩

/-- Claim C3, witness for the quantified conjunct (strict progress of
`createTextChunksWithOverlap` at a concrete input). -/
theorem claim_C3_witness :
    (100 : Nat) < 500 ∧ (0 : Nat) < stepStartW stuckText 500 100 0 :=
  ⟨by decide, claim_C3_chunk_progress.2.2.2.2.2.2.2 stuckText 500 100 0 (by decide)⟩

/-- Claim C4, counterexample: two chunks with identical text coming from
different articles carry different chunk ids, hash to different vector-store
point ids, and upserting both leaves two records (count 2, not 1) — the id
is a hash of `articleId_chunk_index`, not of the normalized chunk text. -/
theorem claim_C4_counterexample :
    createTextChunksWithOverlap artA 500 100 = some [cA] ∧
    createTextChunksWithOverlap artB 500 100 = some [cB] ∧
    cA.text = cB.text ∧
    dA.id = cA.id ∧ dB.id = cB.id ∧
    upsertPointId dA ≠ upsertPointId dB ∧
    countVectors (upsertOr (upsertOr vs0 dA) dB) = Except.ok 2 :=
  ⟨by decide, by decide, by decide, by decide, by decide, by decide, rfl⟩

/-- Claim C4, amended: the point id is a stable hash of the chunk id alone,
so a successful upsert followed by an upsert of the same data succeeds and
leaves the record count unchanged (overwrite, not duplicate); any two
upserts with equal chunk ids map to the same point id. -/
theorem claim_C4_dedup_by_id (s : VSState) (d : UpsertData) (s1 : VSState)
    (h : upsertVector s d = Except.ok s1) :
    (∃ s2, upsertVector s1 d = Except.ok s2 ∧
      s2.inMemoryVectors.length = s1.inMemoryVectors.length) ∧
    (∀ d2 : UpsertData, d2.id = d.id → upsertPointId d2 = upsertPointId d) := by
  unfold upsertVector at h
  split at h
  next hinit => cases h
  next hinit =>
    split at h
    next hid => cases h
    next hid =>
      split at h
      next hlen => cases h
      next hlen =>
        have h1 : s.isInitialized = true := by
          revert hinit; cases s.isInitialized <;> simp
        have hlen2 : d.vector.length = s.vectorSize := not_ne_iff.mp hlen
        injection h with h4
        subst h4
        constructor
        · have hup : upsertVector
              ⟨s.vectorSize, s.isInitialized,
                mapSet s.inMemoryVectors d.id ⟨d.vector, d.payload⟩⟩ d =
              Except.ok ⟨s.vectorSize, s.isInitialized,
                mapSet (mapSet s.inMemoryVectors d.id ⟨d.vector, d.payload⟩) d.id
                  ⟨d.vector, d.payload⟩⟩ := by
            simp [upsertVector, h1, hid, hlen2]
          exact ⟨_, hup, mapSet_length_of_mem _ d.id _
            (by rw [mapGet_mapSet_self]; rfl)⟩
        · intro d2 hid2
          simp [upsertPointId, hid2]

/-- Claim C4, witness for the amended theorem at the concrete store and
chunk data. -/
theorem claim_C4_witness :
    upsertVector vs0 dA = Except.ok (upsertOr vs0 dA) ∧
    ((∃ s2, upsertVector (upsertOr vs0 dA) dA = Except.ok s2 ∧
      s2.inMemoryVectors.length = (upsertOr vs0 dA).inMemoryVectors.length) ∧
    (∀ d2 : UpsertData, d2.id = dA.id → upsertPointId d2 = upsertPointId dA)) :=
  ⟨rfl, claim_C4_dedup_by_id vs0 dA (upsertOr vs0 dA) rfl⟩

/-- Claim C5, counterexample: an `upsertBatch` element whose vector length
(1) differs from the configured dimension (768) is NOT rejected — the call
succeeds and the record is stored, so the batch path performs no dimension
validation. -/
theorem claim_C5_counterexample :
    dBad.vector.length ≠ vs0.vectorSize ∧
    upsertBatch vs0 [dBad] =
      Except.ok { vs0 with inMemoryVectors := [("x", ⟨[1], pay0⟩)] } ∧
    countVectors (upsertBatchOr vs0 [dBad]) = Except.ok 1 :=
  ⟨by decide, rfl, rfl⟩

/-- Claim C5, amended: a single `upsertVector` call with a mismatched vector
length is rejected with the dimension-mismatch error and stores nothing,
while `upsertBatch` applies no dimension check at all — it succeeds and
stores every element as given. -/
theorem claim_C5_dimension_check (s : VSState) (d : UpsertData)
    (h1 : s.isInitialized = true) (h2 : d.id ≠ "") (h3 : d.vector.length ≠ s.vectorSize) :
    upsertVector s d = Except.error ("Vector size mismatch: expected " ++
      toString s.vectorSize ++ ", got " ++ toString d.vector.length) ∧
    (∀ ds : List UpsertData, ds ≠ [] →
      upsertBatch s ds = Except.ok
        { s with inMemoryVectors :=
            ds.foldl (fun m dd => mapSet m dd.id ⟨dd.vector, dd.payload⟩) s.inMemoryVectors }) := by
  constructor
  · simp [upsertVector, h1, h2, h3]
  · intro ds hds
    have hemp : ds.isEmpty = false := by
      cases ds with
      | nil => exact absurd rfl hds
      | cons a t => rfl
    simp [upsertBatch, h1, hemp]

/-- Claim C5, witness for the amended theorem at the concrete mismatched
data. -/
theorem claim_C5_witness :
    upsertVector vs0 dBad = Except.error ("Vector size mismatch: expected " ++
      toString vs0.vectorSize ++ ", got " ++ toString dBad.vector.length) ∧
    (∀ ds : List UpsertData, ds ≠ [] →
      upsertBatch vs0 ds = Except.ok
        { vs0 with inMemoryVectors :=
            ds.foldl (fun m dd => mapSet m dd.id ⟨dd.vector, dd.payload⟩) vs0.inMemoryVectors }) :=
  claim_C5_dimension_check vs0 dBad (by decide) (by decide) (by decide)

open RagNews.RedisKV

namespace RagNews.RedisKV

theorem getSessionFB_fallback {V : Type} (s : RCState V) (sid : String) (now : Int) :
    ((getSessionFB s sid now).2).fallbackMode = s.fallbackMode := by
  unfold getSessionFB
  cases mapGet s.inMemoryStore ("session:" ++ sid) with
  | none => rfl
  | some e =>
    dsimp only
    split <;> rfl

theorem getCachedQueryResultFB_fallback {V : Type} (s : RCState V) (q : String) (now : Int) :
    ((getCachedQueryResultFB s q now).2).fallbackMode = s.fallbackMode := by
  unfold getCachedQueryResultFB
  cases mapGet s.inMemoryStore (cacheKey q) with
  | none => rfl
  | some e =>
    dsimp only
    split <;> rfl

theorem take_append_take {α : Type} (n : Nat) (A l : List α) :
    (A ++ l.take n).take n = (A ++ l).take n := by
  rw [List.take_append_eq_append_take, List.take_append_eq_append_take, List.take_take]
  congr 2
  omega

theorem addMessage_fb {V : Type} (net : NetEnv V) (s : RCState V) (sid : String)
    (m : MsgIn) (now : String) (hfb : s.fallbackMode = true) :
    addMessage net s sid m now = (addMessageFB s sid m now, false) := by
  simp [addMessage, hfb]

theorem addMessageFB_fallback {V : Type} (s : RCState V) (sid : String)
    (m : MsgIn) (now : String) :
    (addMessageFB s sid m now).fallbackMode = s.fallbackMode := rfl

theorem chatListOf_addMessageFB {V : Type} (s : RCState V) (sid : String)
    (m : MsgIn) (now : String) :
    chatListOf (addMessageFB s sid m now) sid =
      ((⟨m, now⟩ : StoredMsg) :: chatListOf s sid).take chatHistoryLimit := by
  unfold chatListOf addMessageFB
  rw [mapGet_mapSet_self]
  dsimp only [Option.getD]
  split
  · rfl
  · next hle => exact (List.take_of_length_le (by omega)).symm

theorem appendMsgs_spec {V : Type} (net : NetEnv V) (sid : String) :
    ∀ (pairs : List (MsgIn × String)) (s : RCState V),
      s.fallbackMode = true → (chatListOf s sid).length ≤ chatHistoryLimit →
      (appendMsgs net sid pairs s).fallbackMode = true ∧
      chatListOf (appendMsgs net sid pairs s) sid =
        ((storedOf pairs).reverse ++ chatListOf s sid).take chatHistoryLimit := by
  intro pairs
  induction pairs with
  | nil =>
    intro s hfb hlen
    refine ⟨hfb, ?_⟩
    simp only [appendMsgs, List.foldl_nil, storedOf, List.map_nil, List.reverse_nil,
      List.nil_append]
    exact (List.take_of_length_le hlen).symm
  | cons p ps ih =>
    intro s hfb hlen
    have hstep : appendMsgs net sid (p :: ps) s =
        appendMsgs net sid ps (addMessageFB s sid p.1 p.2) := by
      simp [appendMsgs, addMessage_fb net s sid p.1 p.2 hfb]
    have hfb2 : (addMessageFB s sid p.1 p.2).fallbackMode = true := by
      rw [addMessageFB_fallback]; exact hfb
    have hcl := chatListOf_addMessageFB s sid p.1 p.2
    have hlen2 : (chatListOf (addMessageFB s sid p.1 p.2) sid).length ≤ chatHistoryLimit := by
      rw [hcl]
      simp [List.length_take]
    obtain ⟨hA, hB⟩ := ih (addMessageFB s sid p.1 p.2) hfb2 hlen2
    rw [hstep]
    refine ⟨hA, ?_⟩
    rw [hB, hcl, take_append_take]
    congr 1
    simp [storedOf, List.append_assoc]

end RagNews.RedisKV

/-- Claim C6, counterexample: from a state in fallback mode, the `connect`
event handler installed by `_attemptConnection` resets `fallbackMode` to
`false` — the flag does not stay `true` for the process lifetime whenever
the underlying client later emits `connect`. -/
theorem claim_C6_counterexample :
    sFBe.fallbackMode = true ∧ (onConnect sFBe).fallbackMode = false := ⟨rfl, rfl⟩

/-- Claim C6, amended: every data-path operation invoked in fallback mode
touches only the in-process store (its network flag is `false`) and leaves
`fallbackMode` set; the `error` and `disconnect` handlers also keep the
state degraded.  Permanence fails only through the `connect` handler (see
the counterexample). -/
theorem claim_C6_fallback_ops {V : Type} (net : NetEnv V) (s : RCState V)
    (sid q : String) (d v : V) (m : MsgIn) (ts : String) (ttl tnow : Int)
    (hfb : s.fallbackMode = true) :
    ((setSession net s sid d ttl tnow).2 = false ∧
      (setSession net s sid d ttl tnow).1.fallbackMode = true) ∧
    ((getSession net s sid tnow).2.2 = false ∧
      (getSession net s sid tnow).2.1.fallbackMode = true) ∧
    ((deleteSession net s sid).2 = false ∧
      (deleteSession net s sid).1.fallbackMode = true) ∧
    ((addMessage net s sid m ts).2 = false ∧
      (addMessage net s sid m ts).1.fallbackMode = true) ∧
    ((getChatHistory net s sid 20).2.2 = false ∧
      (getChatHistory net s sid 20).2.1.fallbackMode = true) ∧
    ((clearChatHistory net s sid).2 = false ∧
      (clearChatHistory net s sid).1.fallbackMode = true) ∧
    ((cacheQueryResult net s q v ttl tnow).2 = false ∧
      (cacheQueryResult net s q v ttl tnow).1.fallbackMode = true) ∧
    ((getCachedQueryResult net s q tnow).2.2 = false ∧
      (getCachedQueryResult net s q tnow).2.1.fallbackMode = true) ∧
    (onError s).fallbackMode = true ∧ (onDisconnect s).fallbackMode = true := by
  refine ⟨⟨?_, ?_⟩, ⟨?_, ?_⟩, ⟨?_, ?_⟩, ⟨?_, ?_⟩, ⟨?_, ?_⟩, ⟨?_, ?_⟩, ⟨?_, ?_⟩, ⟨?_, ?_⟩,
    ?_, ?_⟩ <;>
    simp [setSession, setSessionFB, getSession, getSessionFB_fallback, deleteSession,
      deleteSessionFB, addMessage, addMessageFB, getChatHistory, clearChatHistory,
      clearChatHistoryFB, cacheQueryResult, cacheQueryResultFB, getCachedQueryResult,
      getCachedQueryResultFB_fallback, onError, onDisconnect, hfb]

/-- Claim C6, witness for the amended theorem at a concrete degraded
state. -/
theorem claim_C6_witness :
    ((setSession netOkN sFBe "s1" 1 60 0).2 = false ∧
      (setSession netOkN sFBe "s1" 1 60 0).1.fallbackMode = true) ∧
    ((getSession netOkN sFBe "s1" 0).2.2 = false ∧
      (getSession netOkN sFBe "s1" 0).2.1.fallbackMode = true) ∧
    ((deleteSession netOkN sFBe "s1").2 = false ∧
      (deleteSession netOkN sFBe "s1").1.fallbackMode = true) ∧
    ((addMessage netOkN sFBe "s1" ⟨"user", "hi"⟩ "t0").2 = false ∧
      (addMessage netOkN sFBe "s1" ⟨"user", "hi"⟩ "t0").1.fallbackMode = true) ∧
    ((getChatHistory netOkN sFBe "s1" 20).2.2 = false ∧
      (getChatHistory netOkN sFBe "s1" 20).2.1.fallbackMode = true) ∧
    ((clearChatHistory netOkN sFBe "s1").2 = false ∧
      (clearChatHistory netOkN sFBe "s1").1.fallbackMode = true) ∧
    ((cacheQueryResult netOkN sFBe "q" 2 60 0).2 = false ∧
      (cacheQueryResult netOkN sFBe "q" 2 60 0).1.fallbackMode = true) ∧
    ((getCachedQueryResult netOkN sFBe "q" 0).2.2 = false ∧
      (getCachedQueryResult netOkN sFBe "q" 0).2.1.fallbackMode = true) ∧
    (onError sFBe).fallbackMode = true ∧ (onDisconnect sFBe).fallbackMode = true :=
  claim_C6_fallback_ops netOkN sFBe "s1" "q" 1 2 ⟨"user", "hi"⟩ "t0" 60 0 rfl

/-- Claim C7: in the in-process cache, a value written with a positive TTL
is readable until the expiry instant fixed at write time, is gone (null)
after it, and a successful read does not move the expiry — a later read
past the deadline still misses even if an earlier read hit. -/
theorem claim_C7_cache_roundtrip {V : Type} (net : NetEnv V) (s : RCState V)
    (q : String) (v : V) (ttl tW tR tR2 : Int)
    (hfb : s.fallbackMode = true) (httl : 0 < ttl) :
    (tR ≤ tW + ttl * 1000 →
      (getCachedQueryResult net (cacheQueryResult net s q v ttl tW).1 q tR).1 = some v) ∧
    (tW + ttl * 1000 < tR2 →
      (getCachedQueryResult net (cacheQueryResult net s q v ttl tW).1 q tR2).1 = none) ∧
    (tR ≤ tW + ttl * 1000 → tW + ttl * 1000 < tR2 →
      (getCachedQueryResult net
        (getCachedQueryResult net (cacheQueryResult net s q v ttl tW).1 q tR).2.1 q tR2).1 =
        none) := by
  have hkey := mapGet_mapSet_self s.inMemoryStore (cacheKey q)
    (⟨v, tW + ttl * 1000⟩ : StoreEntry V)
  have hset : (cacheQueryResult net s q v ttl tW).1 = cacheQueryResultFB s q v ttl tW := by
    simp [cacheQueryResult, hfb]
  refine ⟨fun hR => ?_, fun hR2 => ?_, fun hR hR2 => ?_⟩
  · rw [hset]
    simp only [getCachedQueryResult, cacheQueryResultFB, hfb, if_true,
      getCachedQueryResultFB, hkey]
    split
    · next hcond => exfalso; omega
    · rfl
  · rw [hset]
    simp only [getCachedQueryResult, cacheQueryResultFB, hfb, if_true,
      getCachedQueryResultFB, hkey]
    split
    · rfl
    · next hcond => exfalso; omega
  · rw [hset]
    have hstate : (getCachedQueryResult net (cacheQueryResultFB s q v ttl tW) q tR).2.1 =
        cacheQueryResultFB s q v ttl tW := by
      simp only [getCachedQueryResult, cacheQueryResultFB, hfb, if_true,
        getCachedQueryResultFB, hkey]
      split
      · next hcond => exfalso; omega
      · rfl
    rw [hstate]
    simp only [getCachedQueryResult, cacheQueryResultFB, hfb, if_true,
      getCachedQueryResultFB, hkey]
    split
    · rfl
    · next hcond => exfalso; omega

/-- Claim C7, witness at a concrete state, key, value and clock: a write at
time 0 with a 60-second TTL is readable at 1000 ms, gone at 100000 ms, and
still gone at 100000 ms after an intermediate successful read. -/
theorem claim_C7_witness :
    (getCachedQueryResult netOkN (cacheQueryResult netOkN sFBe "q" 7 60 0).1 "q" 1000).1 =
      some 7 ∧
    (getCachedQueryResult netOkN (cacheQueryResult netOkN sFBe "q" 7 60 0).1 "q" 100000).1 =
      none ∧
    (getCachedQueryResult netOkN
      (getCachedQueryResult netOkN (cacheQueryResult netOkN sFBe "q" 7 60 0).1 "q"
        1000).2.1 "q" 100000).1 = none := by
  have h := claim_C7_cache_roundtrip netOkN sFBe "q" 7 60 0 1000 100000 rfl (by decide)
  exact ⟨h.1 (by decide), h.2.1 (by decide), h.2.2 (by decide) (by decide)⟩

/-- Claim C8: starting from a session with no stored log and staying on the
in-process path, any sequence of `addMessage` calls leaves the newest-first
log equal to the reversed input truncated to `chatHistoryLimit` (hence at
most 50 entries); appending exactly 60 messages leaves exactly 50 — the 50
most recent — and `getChatHistory` returns them in chronological order,
most recent last (the input sequence with its first 10 entries dropped). -/
theorem claim_C8_message_log_bound {V : Type} (net : NetEnv V) (s : RCState V)
    (sid : String) (pairs : List (MsgIn × String))
    (hfb : s.fallbackMode = true) (h0 : chatListOf s sid = []) :
    chatListOf (appendMsgs net sid pairs s) sid =
      ((storedOf pairs).reverse).take chatHistoryLimit ∧
    (chatListOf (appendMsgs net sid pairs s) sid).length ≤ chatHistoryLimit ∧
    (pairs.length = chatHistoryLimit + 10 →
      (chatListOf (appendMsgs net sid pairs s) sid).length = chatHistoryLimit ∧
      (getChatHistory net (appendMsgs net sid pairs s) sid chatHistoryLimit).1 =
        (storedOf pairs).drop 10) := by
  have hlen0 : (chatListOf s sid).length ≤ chatHistoryLimit := by
    rw [h0]; exact Nat.zero_le _
  obtain ⟨hA, hB⟩ := appendMsgs_spec net sid pairs s hfb hlen0
  rw [h0, List.append_nil] at hB
  have hsp : (storedOf pairs).length = pairs.length := by
    simp [storedOf]
  refine ⟨hB, ?_, fun h60 => ⟨?_, ?_⟩⟩
  · rw [hB]
    simp [List.length_take]
  · rw [hB]
    simp [List.length_take, List.length_reverse, hsp, h60]
  · have hfbhist : (getChatHistory net (appendMsgs net sid pairs s) sid chatHistoryLimit).1 =
        getChatHistoryFB (appendMsgs net sid pairs s) sid chatHistoryLimit := by
      simp [getChatHistory, hA]
    rw [hfbhist]
    have hfbval : getChatHistoryFB (appendMsgs net sid pairs s) sid chatHistoryLimit =
        ((chatListOf (appendMsgs net sid pairs s) sid).take chatHistoryLimit).reverse := rfl
    rw [hfbval, hB, List.take_take, Nat.min_self]
    rw [List.reverse_take]
    rw [List.reverse_reverse, List.length_reverse, hsp, h60]
    congr 1

/-- Claim C8, witness: sixty concrete messages appended to a fresh session
on the fallback path. -/
theorem claim_C8_witness :
    chatListOf (appendMsgs netOkN "s1" msgs60 sFBe) "s1" =
      ((storedOf msgs60).reverse).take chatHistoryLimit ∧
    (chatListOf (appendMsgs netOkN "s1" msgs60 sFBe) "s1").length ≤ chatHistoryLimit ∧
    ((chatListOf (appendMsgs netOkN "s1" msgs60 sFBe) "s1").length = chatHistoryLimit ∧
      (getChatHistory netOkN (appendMsgs netOkN "s1" msgs60 sFBe) "s1" chatHistoryLimit).1 =
        (storedOf msgs60).drop 10) := by
  have h := claim_C8_message_log_bound netOkN sFBe "s1" msgs60 rfl rfl
  exact ⟨h.1, h.2.1, h.2.2 (by decide)⟩

namespace RagNews.Rag

/-- Shared shape lemma: once initialized, `processQuery` always returns a
response, and when the pipeline failed that response is the fallback
object. -/
theorem processQuery_ok (env : RagEnv) (query sessionId : String) (opts : QOptions)
    (h : env.isInitialized = true) :
    ∃ r, processQuery env query sessionId opts = Except.ok r ∧
      (∀ e, processQueryCore env query sessionId opts = Except.error e →
        r = fallbackResponse query sessionId env.nowIso e) := by
  cases hc : processQueryCore env query sessionId opts with
  | ok r =>
    refine ⟨r, ?_, fun e he => ?_⟩
    · simp [processQuery, h, hc]
    · cases he
  | error e =>
    refine ⟨fallbackResponse query sessionId env.nowIso e, ?_, fun e2 he2 => ?_⟩
    · simp [processQuery, h, hc]
    · cases he2; rfl

/-- The fallback response string is never empty. -/
theorem fallbackResponse_response_ne (query sessionId nowIso errMsg : String) :
    (fallbackResponse query sessionId nowIso errMsg).response ≠ "" := by
  intro h
  have h2 : ("I apologize, but I encountered an error while processing your question: \"" ++
      query ++ "\". Please try again or rephrase your question.").length =
      (("" : String)).length := congrArg String.length h
  rw [String.length_append, String.length_append] at h2
  have h3 : 0 <
      ("I apologize, but I encountered an error while processing your question: \"").length := by
    decide
  have h4 : (("" : String)).length = 0 := rfl
  omega

theorem extractSourcesAux_mem_not_seen :
    ∀ (rs : List SearchResult) (seen : List String) (u : String),
      u ∈ (extractSourcesAux rs seen).map (fun s => s.url) → u ∉ seen := by
  intro rs
  induction rs with
  | nil => intro seen u h; simp [extractSourcesAux] at h
  | cons r t ih =>
    intro seen u h
    unfold extractSourcesAux at h
    cases hu : urlOf r with
    | none => rw [hu] at h; exact ih seen u h
    | some u0 =>
      rw [hu] at h
      dsimp only at h
      by_cases hin : u0 ∈ seen
      · rw [if_pos hin] at h
        exact ih seen u h
      · rw [if_neg hin] at h
        simp only [List.map_cons, List.mem_cons] at h
        cases h with
        | inl hEq => rw [hEq]; exact hin
        | inr htail =>
          intro hseen
          exact ih (u0 :: seen) u htail (List.mem_cons_of_mem _ hseen)

theorem extractSourcesAux_nodup :
    ∀ (rs : List SearchResult) (seen : List String),
      ((extractSourcesAux rs seen).map (fun s => s.url)).Nodup := by
  intro rs
  induction rs with
  | nil => intro seen; simp [extractSourcesAux]
  | cons r t ih =>
    intro seen
    unfold extractSourcesAux
    cases hu : urlOf r with
    | none => exact ih seen
    | some u0 =>
      dsimp only
      by_cases hin : u0 ∈ seen
      · rw [if_pos hin]; exact ih seen
      · rw [if_neg hin]
        simp only [List.map_cons, List.nodup_cons]
        refine ⟨fun hmem => ?_, ih (u0 :: seen)⟩
        exact extractSourcesAux_mem_not_seen t (u0 :: seen) u0 hmem (List.mem_cons_self u0 seen)

theorem extractSourcesAux_sublist :
    ∀ (rs : List SearchResult) (seen : List String),
      ((extractSourcesAux rs seen).map (fun s => s.url)).Sublist (rs.filterMap urlOf) := by
  intro rs
  induction rs with
  | nil => intro seen; simp [extractSourcesAux]
  | cons r t ih =>
    intro seen
    unfold extractSourcesAux
    cases hu : urlOf r with
    | none =>
      rw [List.filterMap_cons_none hu]
      exact ih seen
    | some u0 =>
      rw [List.filterMap_cons_some hu]
      dsimp only
      by_cases hin : u0 ∈ seen
      · rw [if_pos hin]
        exact (ih seen).cons u0
      · rw [if_neg hin]
        simp only [List.map_cons]
        exact (ih (u0 :: seen)).cons₂ u0

end RagNews.Rag

open RagNews.Rag

/-- Claim C1: once the service is initialized (which `initialize()`
guarantees unconditionally, even in degraded mode), `processQuery` always
returns a response object — it never propagates an error from the
cache-check, embedding, retrieval, filtering, history, generation or
persistence steps; whenever the pipeline failed, the returned object is the
fallback response with empty sources, zero context, model `"fallback"` and
a non-empty apologetic text. -/
theorem claim_C1_processQuery_total (env : RagEnv) (query sessionId : String)
    (opts : QOptions) (h : env.isInitialized = true) :
    ∃ r, processQuery env query sessionId opts = Except.ok r ∧
      (∀ e, processQueryCore env query sessionId opts = Except.error e →
        r.sources = [] ∧ r.contextUsed = 0 ∧ r.model = "fallback" ∧ r.response ≠ "") := by
  obtain ⟨r, hr, hshape⟩ := processQuery_ok env query sessionId opts h
  refine ⟨r, hr, fun e he => ?_⟩
  rw [hshape e he]
  exact ⟨rfl, rfl, rfl, fallbackResponse_response_ne query sessionId env.nowIso e⟩

/-- Claim C1, witness: a concrete environment whose embedding step throws
still produces an `ok` response of the fallback shape. -/
theorem claim_C1_witness :
    envFail.isInitialized = true ∧
    (∃ r, processQuery envFail "what happened" "s1" {} = Except.ok r ∧
      (∀ e, processQueryCore envFail "what happened" "s1" {} = Except.error e →
        r.sources = [] ∧ r.contextUsed = 0 ∧ r.model = "fallback" ∧ r.response ≠ "")) :=
  ⟨rfl, claim_C1_processQuery_total envFail "what happened" "s1" {} rfl⟩

/-- Claim C9: recency-keyword queries retrieve with `maxResults * 2`
candidates and the three-day publish-date filter, fall back to an
unfiltered search of the same size when the filtered call fails, and the
query still produces a non-error response; queries without the keywords are
searched unfiltered directly. -/
theorem claim_C9_recency_retrieval (env : RagEnv) (q sid : String) (emb : List ℚ)
    (opts : QOptions) :
    (isRecentNewsQuery q = true →
      (∀ res, env.search emb (opts.maxResults * 2) (some (recencyFilter env.nowMs)) =
          Except.ok res →
        retrieveStep env q emb opts.maxResults = Except.ok res) ∧
      (∀ e, env.search emb (opts.maxResults * 2) (some (recencyFilter env.nowMs)) =
          Except.error e →
        retrieveStep env q emb opts.maxResults = env.search emb (opts.maxResults * 2) none) ∧
      (env.isInitialized = true → ∃ r, processQuery env q sid opts = Except.ok r)) ∧
    (isRecentNewsQuery q = false →
      retrieveStep env q emb opts.maxResults = env.search emb (opts.maxResults * 2) none) ∧
    (recencyFilter env.nowMs).publishDateGte = env.nowMs - 3 * 24 * 60 * 60 * 1000 := by
  refine ⟨fun hrec => ⟨fun res hres => ?_, fun e he => ?_, fun hinit => ?_⟩,
    fun hnot => ?_, ?_⟩
  · simp [retrieveStep, hrec, hres]
  · simp [retrieveStep, hrec, he]
  · obtain ⟨r, hr, _⟩ := processQuery_ok env q sid opts hinit
    exact ⟨r, hr⟩
  · simp [retrieveStep, hnot]
  · simp [recencyFilter]

/-- Claim C9, witness: the query "latest news" is detected as recent; under
an environment whose filtered search always throws, retrieval equals the
unfiltered search and the query still gets an `ok` response. -/
theorem claim_C9_witness :
    isRecentNewsQuery "latest news" = true ∧
    retrieveStep env9 "latest news" [] (5 : Nat) = env9.search [] (5 * 2) none ∧
    (∃ r, processQuery env9 "latest news" "s1" {} = Except.ok r) := by
  have h := claim_C9_recency_retrieval env9 "latest news" "s1" [] {}
  have hrec : isRecentNewsQuery "latest news" = true := by decide
  exact ⟨hrec, (h.1 hrec).2.1 "date filtering failed" rfl, (h.1 hrec).2.2 rfl⟩

/-- Claim C10: `extractSources` keeps at most five sources, with pairwise
distinct urls, in input order restricted to results carrying a usable
`articleUrl` (their url sequence is a sublist of the input's url sequence);
consequently a response can use context (`contextUsed = 1`) while citing no
sources at all, exhibited concretely by `envNoUrl`. -/
theorem claim_C10_extract_sources :
    (∀ results : List SearchResult, (extractSources results).length ≤ 5) ∧
    (∀ results : List SearchResult,
      ((extractSources results).map (fun s => s.url)).Nodup) ∧
    (∀ results : List SearchResult,
      ((extractSources results).map (fun s => s.url)).Sublist (results.filterMap urlOf)) ∧
    (rs0.length = 1 ∧ extractSources rs0 = [] ∧
      processQuery envNoUrl "question" "s1" {} = Except.ok resp10 ∧
      resp10.contextUsed = 1 ∧ resp10.sources = []) := by
  refine ⟨?_, ?_, ?_, rfl, rfl, ?_, rfl, rfl⟩
  · intro rs
    unfold extractSources
    simp [List.length_take]
  · intro rs
    unfold extractSources
    rw [List.map_take]
    exact List.Sublist.nodup (List.take_sublist 5 _) (extractSourcesAux_nodup rs [])
  · intro rs
    unfold extractSources
    rw [List.map_take]
    exact (List.take_sublist 5 _).trans (extractSourcesAux_sublist rs [])
  · rfl
